import Mathlib

/-!
Shallow embedding of the go-mongodb-client repository (packages mongodb and
mongostorage): the retrying read decorator (RetryingStorage and its retry
loop), the direct Storage adapter (FindMany paging and RunInTransaction),
and the generic ObjectID hex conversion.  Definitions are translated from
the Go source; the surrounding mongo driver is modelled only where a claim
needs its documented behaviour, and each such spot is marked in its doc
comment.
-/

/-! ### Go error model

Errors in the Go code are classified by the retry loop through
errors.Is(err, context.Canceled), errors.Is(err, mongo.ErrClientDisconnected),
mongo.IsTimeout, mongo.IsNetworkError, a direct type assertion to
driver.RetryablePoolError, and errors.As for topology.WaitQueueTimeoutError.
We model an error as a primitive carrying classification flags and a message,
or as one of the two wrappers the repository itself builds:
errors.Wrap(err, msg) from pkg/errors, and fmt.Errorf with a wrapped first
error and a textually included second error. -/

/-- Classification flags of a primitive Go error, one per category the
retry loop in mocked_storage.go tests for. -/
structure ErrFlags where
  canceled : Bool
  clientDisconnected : Bool
  timeout : Bool
  networkError : Bool
  retryablePoolError : Bool
  waitQueueTimeout : Bool
deriving DecidableEq, Repr

/-- Model of a Go error value: a primitive error with classification flags
and message text, errors.Wrap (message plus unwrappable cause), or
fmt.Errorf with verb w on the first argument and verb v on the second
(first is unwrappable, second only contributes text). -/
inductive GoErr where
  | prim (flags : ErrFlags) (msg : String)
  | wrap (msg : String) (cause : GoErr)
  | wrapAndText (cause : GoErr) (textOf : GoErr)
deriving DecidableEq, Repr

namespace GoErr

/-- Models errors.Is(err, context.Canceled): follows the unwrap chain. -/
def isCanceled : GoErr → Bool
  | .prim f _ => f.canceled
  | .wrap _ c => c.isCanceled
  | .wrapAndText c _ => c.isCanceled

/-- Models errors.Is(err, mongo.ErrClientDisconnected). -/
def isClientDisconnected : GoErr → Bool
  | .prim f _ => f.clientDisconnected
  | .wrap _ c => c.isClientDisconnected
  | .wrapAndText c _ => c.isClientDisconnected

/-- Models mongo.IsTimeout(err), which inspects the unwrap chain. -/
def isTimeout : GoErr → Bool
  | .prim f _ => f.timeout
  | .wrap _ c => c.isTimeout
  | .wrapAndText c _ => c.isTimeout

/-- Models mongo.IsNetworkError(err). -/
def isNetworkError : GoErr → Bool
  | .prim f _ => f.networkError
  | .wrap _ c => c.isNetworkError
  | .wrapAndText c _ => c.isNetworkError

/-- Models the direct type assertion err.(driver.RetryablePoolError) in the
retry loop: a type assertion does not unwrap, so only a primitive error can
satisfy it. -/
def isRetryablePoolErr : GoErr → Bool
  | .prim f _ => f.retryablePoolError
  | _ => false

/-- Models errors.As(err, &topology.WaitQueueTimeoutError), which follows
the unwrap chain. -/
def isWaitQueueTimeout : GoErr → Bool
  | .prim f _ => f.waitQueueTimeout
  | .wrap _ c => c.isWaitQueueTimeout
  | .wrapAndText c _ => c.isWaitQueueTimeout

/-- Disjunction of the five transient-error checks of the retry loop in
mocked_storage.go lines 205-249.  The five branches of the Go code perform
the identical sleep-increment-continue action, so first-match-wins order
collapses to this disjunction. -/
def isTransient (e : GoErr) : Bool :=
  e.isClientDisconnected || e.isTimeout || e.isNetworkError ||
    e.isRetryablePoolErr || e.isWaitQueueTimeout

/-- Models err.Error(): pkg/errors Wrap renders message, colon, cause;
fmt.Errorf with verbs w and v separated by a space renders both operands. -/
def errText : GoErr → String
  | .prim _ m => m
  | .wrap m c => m ++ ": " ++ c.errText
  | .wrapAndText c t => c.errText ++ " " ++ t.errText

/-- Models errors.Unwrap towards the cause: pkg/errors Wrap exposes its
cause, and fmt.Errorf exposes the operand of the w verb. -/
def errUnwrap : GoErr → Option GoErr
  | .prim _ _ => none
  | .wrap _ c => some c
  | .wrapAndText c _ => some c

end GoErr

/-- Models pkg/errors.Wrap(err, msg), which returns nil when err is nil. -/
def wrapOpt (msg : String) : Option GoErr → Option GoErr
  | none => none
  | some e => some (.wrap msg e)

/-! ### The RetryingStorage retry loop

Source: mocked_storage.go (package mongodb), func (s *RetryingStorage)
retry, lines 186-256.  The loop keeps the attempt counter (1-based) and the
last error; on each transient failure it sleeps 10ms times the attempt
number, increments the counter and retries; cancellation and unrecognized
errors break out immediately; when the counter exceeds maxRetries the last
error is returned wrapped with "exceeded retry limit".

The underlying operation is modelled as a function from the attempt number
(1-based) to the pair of the value the closure writes and the error it
returns; the decorator observes only one call per attempt.  The result
records the returned value and error together with the instrumentation the
claims speak about: how many underlying calls were made and the list of
sleep durations (milliseconds) in order. -/

/-- The maxRetries constant of the retry loop. -/
def maxRetries : Nat := 10

/-- Result of a retried operation: final value, final error, number of
underlying calls performed, and the sleep durations in milliseconds in the
order they happened. -/
structure RetryResult (α : Type) where
  value : α
  err : Option GoErr
  calls : Nat
  sleeps : List Nat
deriving DecidableEq, Repr

/-- The retry loop body, from the top-of-loop limit check onwards: attempt
is the current 1-based attempt number, acc the value written by the closure
so far (the Go named return), prev the error of the previous iteration. -/
def retryAux {α : Type} (fn : Nat → α × Option GoErr) (attempt : Nat)
    (acc : α) (prev : Option GoErr) : RetryResult α :=
  if _hstop : maxRetries < attempt then
    ⟨acc, wrapOpt "exceeded retry limit" prev, 0, []⟩
  else
    match fn attempt with
    | (v, none) => ⟨v, none, 1, []⟩
    | (v, some e) =>
      if e.isCanceled then ⟨v, some e, 1, []⟩
      else if e.isTransient then
        let r := retryAux fn (attempt + 1) v (some e)
        ⟨r.value, r.err, r.calls + 1, 10 * attempt :: r.sleeps⟩
      else ⟨v, some e, 1, []⟩
termination_by maxRetries + 1 - attempt
decreasing_by simp only [maxRetries] at *; omega

/-- Entry of the retry loop: attempt 1, the closure-captured value at its
zero value, no previous error. -/
def retry {α : Type} (fn : Nat → α × Option GoErr) (init : α) : RetryResult α :=
  retryAux fn 1 init none

namespace RetryingStorage

/-- RetryingStorage.FindOne: wraps the upstream FindOne call in retry.
The upstream is modelled by the error of its k-th call. -/
def FindOne (up : Nat → Option GoErr) : RetryResult Unit :=
  retry (fun k => ((), up k)) ()

/-- RetryingStorage.FindAll: wraps the upstream FindAll call in retry. -/
def FindAll (up : Nat → Option GoErr) : RetryResult Unit :=
  retry (fun k => ((), up k)) ()

/-- RetryingStorage.FindMany: wraps the upstream FindMany call in retry;
the closure writes the returned total into the named return (initially 0)
on every attempt, and the decorator returns the last written total. -/
def FindMany (up : Nat → Nat × Option GoErr) : RetryResult Nat :=
  retry up 0

/-- Shared shape of every pass-through operation of RetryingStorage: one
upstream call, whose result is returned unchanged, paired with the number
of underlying calls made. -/
def passthrough {α : Type} (up : Nat → α) : α × Nat :=
  (up 1, 1)

/-- RetryingStorage.RunInTransaction delegates to the upstream without
retry (mocked_storage.go lines 150-152). -/
def RunInTransaction (up : Nat → Option GoErr) : Option GoErr × Nat :=
  passthrough up

/-- RetryingStorage.Insert delegates to the upstream without retry. -/
def Insert (up : Nat → Option GoErr) : Option GoErr × Nat :=
  passthrough up

/-- RetryingStorage.Update delegates to the upstream without retry; results
carry the modified count and the error. -/
def Update (up : Nat → Int × Option GoErr) : (Int × Option GoErr) × Nat :=
  passthrough up

/-- RetryingStorage.Upsert delegates to the upstream without retry. -/
def Upsert (up : Nat → Int × Option GoErr) : (Int × Option GoErr) × Nat :=
  passthrough up

/-- RetryingStorage.Delete delegates to the upstream without retry. -/
def Delete (up : Nat → Int × Option GoErr) : (Int × Option GoErr) × Nat :=
  passthrough up

/-- RetryingStorage.DeleteMany delegates to the upstream without retry. -/
def DeleteMany (up : Nat → Int × Option GoErr) : (Int × Option GoErr) × Nat :=
  passthrough up

end RetryingStorage

/-! ### The direct Storage adapter: FindMany

Source: storage.go (package mongostorage), func (s *Storage) FindMany,
lines 123-153.  The driver collection is modelled as a list of documents,
a document as an association list from field names to integer field values,
and a filter as a predicate on documents (filters are opaque to this layer
and interpreted by the store).  CountDocuments counts the documents
matching the filter.  Find applies the sort option, skips offset documents
and applies the limit; per the documented driver semantics of
options.Find().SetLimit, a limit of 0 means no limit and all documents are
returned. -/

/-- A document: an association list from field names to field values. -/
abbrev Doc := List (String × Int)

/-- Value of a field of a document, as used by the driver sort. -/
def getField (d : Doc) (key : String) : Int :=
  (d.lookup key).getD 0

/-- Models strings.HasPrefix from the Go standard library. -/
def hasPrefixGo (s p : String) : Bool :=
  p.data.isPrefixOf s.data

/-- Models strings.TrimPrefix from the Go standard library. -/
def trimPrefixGo (s p : String) : String :=
  if hasPrefixGo s p then ⟨s.data.drop p.data.length⟩ else s

/-- Ascending driver order on the named field (sort value 1). -/
def ascBy (key : String) (a b : Doc) : Prop :=
  getField a key ≤ getField b key

/-- Descending driver order on the named field (sort value -1). -/
def descBy (key : String) (a b : Doc) : Prop :=
  getField b key ≤ getField a key

instance (key : String) : DecidableRel (ascBy key) :=
  fun a b => inferInstanceAs (Decidable (getField a key ≤ getField b key))

instance (key : String) : DecidableRel (descBy key) :=
  fun a b => inferInstanceAs (Decidable (getField b key ≤ getField a key))

instance (key : String) : IsTotal Doc (ascBy key) :=
  ⟨fun a b => Int.le_total (getField a key) (getField b key)⟩

instance (key : String) : IsTrans Doc (ascBy key) :=
  ⟨fun _ _ _ hab hbc => le_trans hab hbc⟩

instance (key : String) : IsTotal Doc (descBy key) :=
  ⟨fun a b => Int.le_total (getField b key) (getField a key)⟩

instance (key : String) : IsTrans Doc (descBy key) :=
  ⟨fun _ _ _ hab hbc => le_trans hbc hab⟩

/-- Models the sort-option block of Storage.FindMany, lines 136-145: an
empty sort string sets no sort option; a leading minus selects descending
order on the trimmed key; otherwise ascending order on the key.  The
driver returning the documents in the requested order is modelled by a
sort of the matching documents. -/
def sortDocs (sort : String) (docs : List Doc) : List Doc :=
  if sort = "" then docs
  else if hasPrefixGo sort "-" then
    List.insertionSort (descBy (trimPrefixGo sort "-")) docs
  else
    List.insertionSort (ascBy sort) docs

/-- Models the page of documents the driver Find call decodes into dest:
matching documents in the requested order, after skipping offset, with a
positive limit capping the page and limit 0 meaning no limit (documented
driver behaviour of SetLimit). -/
def findPage (store : List Doc) (fil : Doc → Bool) (limit offset : Nat)
    (sort : String) : List Doc :=
  let paged := (sortDocs sort (store.filter fil)).drop offset
  if limit = 0 then paged else paged.take limit

/-- Storage.FindMany, lines 123-153: a CountDocuments call on the filter
alone yields the total, and the Find call yields the page decoded into
dest.  Only the successful path is modelled; the claims about FindMany
concern calls that succeed. -/
def Storage.FindMany (store : List Doc) (fil : Doc → Bool)
    (limit offset : Nat) (sort : String) : Nat × List Doc :=
  ((store.filter fil).length, findPage store fil limit offset sort)

/-! ### The direct Storage adapter: RunInTransaction

Source: storage.go, func (s *Storage) RunInTransaction, lines 72-105.
The driver session is modelled by the outcomes of its five primitive
operations: each is either nil (success) or an error.  The body runs
StartTransaction, then fn, then CommitTransaction, stopping at the first
error; on any error from that sequence an AbortTransaction is attempted,
and an abort failure is combined with the original error through
fmt.Errorf with verbs w and v. -/

/-- Outcomes of the driver primitives involved in one RunInTransaction
call: StartSession, StartTransaction, the caller's fn, CommitTransaction
and AbortTransaction; none means success. -/
structure TxnEnv where
  startSessionErr : Option GoErr
  startTxnErr : Option GoErr
  fnErr : Option GoErr
  commitErr : Option GoErr
  abortErr : Option GoErr
deriving DecidableEq, Repr

/-- What one RunInTransaction call did: the returned error, whether the
transaction was committed, and whether an abort was attempted. -/
structure TxnOutcome where
  ret : Option GoErr
  committed : Bool
  abortAttempted : Bool
deriving DecidableEq, Repr

/-- The error of the mongo.WithSession body, lines 84-94: the first error
among StartTransaction, fn and CommitTransaction. -/
def txnInner (env : TxnEnv) : Option GoErr :=
  match env.startTxnErr with
  | some e => some e
  | none =>
    match env.fnErr with
    | some e => some e
    | none => env.commitErr

/-- Storage.RunInTransaction, lines 72-105: a StartSession failure is
returned at once; otherwise the WithSession body runs, and on its error an
abort is attempted, a failing abort being combined with the original error
through fmt.Errorf with verbs w and v. -/
def Storage.RunInTransaction (env : TxnEnv) : TxnOutcome :=
  match env.startSessionErr with
  | some e => ⟨some e, false, false⟩
  | none =>
    match txnInner env with
    | none => ⟨none, true, false⟩
    | some e =>
      match env.abortErr with
      | none => ⟨some e, false, true⟩
      | some a => ⟨some (.wrapAndText a e), false, true⟩

/-! ### ObjectID hex conversion

Source: storage.go, func ObjectID, lines 49-54, which calls
primitive.ObjectIDFromHex of the driver and discards its error.  The
driver function is modelled from its documented behaviour: a valid input
is exactly 24 hexadecimal characters and decodes to 12 bytes; anything
else yields the zero ObjectID together with an error.  Bytes are naturals
below 256 and an ObjectID is its list of 12 bytes. -/

/-- Value of one hexadecimal digit, upper or lower case, as accepted by
encoding/hex of the Go standard library. -/
def hexDigitVal (c : Char) : Option Nat :=
  if '0' ≤ c ∧ c ≤ '9' then some (c.toNat - '0'.toNat)
  else if 'a' ≤ c ∧ c ≤ 'f' then some (c.toNat - 'a'.toNat + 10)
  else if 'A' ≤ c ∧ c ≤ 'F' then some (c.toNat - 'A'.toNat + 10)
  else none

/-- Models hex.DecodeString of the Go standard library on a character
list: consumes two hexadecimal digits per byte, failing on a stray digit
or a non-hexadecimal character. -/
def hexDecode : List Char → Option (List Nat)
  | [] => some []
  | [_] => none
  | c1 :: c2 :: rest =>
    match hexDigitVal c1 with
    | none => none
    | some hi =>
      match hexDigitVal c2 with
      | none => none
      | some lo =>
        match hexDecode rest with
        | none => none
        | some bs => some ((16 * hi + lo) :: bs)

/-- The zero value of primitive.ObjectID: twelve zero bytes. -/
def zeroObjectID : List Nat := List.replicate 12 0

/-- Models primitive.ObjectIDFromHex of the driver: the input must be 24
characters long and decode as hexadecimal; the byte list of the identifier
is returned, or none for the error case. -/
def objectIDFromHex (s : String) : Option (List Nat) :=
  if s.data.length = 24 then hexDecode s.data else none

/-- ObjectID of storage.go lines 49-54: converts the string through
primitive.ObjectIDFromHex with the error discarded, so a failed parse
yields the zero ObjectID. -/
def ObjectID (s : String) : List Nat :=
  (objectIDFromHex s).getD zeroObjectID

/-- Lower-case hexadecimal character of a value below 16, as produced by
hex.EncodeToString of the Go standard library. -/
def toHexChar (n : Nat) : Char :=
  if n < 10 then Char.ofNat (Char.toNat '0' + n)
  else Char.ofNat (Char.toNat 'a' + n - 10)

/-- Two hexadecimal characters of one byte. -/
def hexEncodeByte (b : Nat) : List Char :=
  [toHexChar (b / 16), toHexChar (b % 16)]

/-- Models primitive.ObjectID.Hex of the driver: the lower-case
hexadecimal string of the 12 identifier bytes. -/
def oidHex (id : List Nat) : String :=
  ⟨(id.map hexEncodeByte).flatten⟩

/-! ### Sample errors used by the witnesses -/

/-- A primitive timeout error. -/
def errTimeout : GoErr :=
  .prim ⟨false, false, true, false, false, false⟩ "operation timed out"

/-- A primitive client-disconnected error. -/
def errDisconnected : GoErr :=
  .prim ⟨false, true, false, false, false, false⟩ "client is disconnected"

/-- A primitive network error. -/
def errNetwork : GoErr :=
  .prim ⟨false, false, false, true, false, false⟩ "connection reset"

/-- A primitive retryable pool error. -/
def errPool : GoErr :=
  .prim ⟨false, false, false, false, true, false⟩ "pool cleared"

/-- A primitive wait-queue timeout error. -/
def errWaitQueue : GoErr :=
  .prim ⟨false, false, false, false, false, true⟩ "wait queue timeout"

/-- A primitive cancellation error that would also match the timeout
category, as context deadline errors do. -/
def errCanceledTimeout : GoErr :=
  .prim ⟨true, false, true, false, false, false⟩ "context canceled"

/-- A primitive unrecognized application error. -/
def errOther : GoErr :=
  .prim ⟨false, false, false, false, false, false⟩ "no documents in result"

/-! ### Step equations of the retry loop -/

/-- Once the attempt counter exceeds maxRetries the loop returns the last
error wrapped with the exceeded-retry-limit message, with no further call
and no further sleep. -/
theorem retryAux_exhaust {α : Type} (fn : Nat → α × Option GoErr) {a : Nat}
    (ha : maxRetries < a) (acc : α) (prev : Option GoErr) :
    retryAux fn a acc prev = ⟨acc, wrapOpt "exceeded retry limit" prev, 0, []⟩ := by
  rw [retryAux]
  simp [ha]

/-- A successful call ends the loop at once with one call and no sleep. -/
theorem retryAux_success {α : Type} (fn : Nat → α × Option GoErr) {a : Nat}
    (ha : a ≤ maxRetries) {v : α} (hfn : fn a = (v, none)) (acc : α)
    (prev : Option GoErr) :
    retryAux fn a acc prev = ⟨v, none, 1, []⟩ := by
  rw [retryAux]
  rw [dif_neg (by omega), hfn]

/-- A cancellation error ends the loop at once, before any transient
check, with one call and no sleep. -/
theorem retryAux_canceled {α : Type} (fn : Nat → α × Option GoErr) {a : Nat}
    (ha : a ≤ maxRetries) {v : α} {e : GoErr} (hfn : fn a = (v, some e))
    (hc : e.isCanceled = true) (acc : α) (prev : Option GoErr) :
    retryAux fn a acc prev = ⟨v, some e, 1, []⟩ := by
  rw [retryAux]
  rw [dif_neg (by omega), hfn]
  simp [hc]

/-- An error that is neither a cancellation nor transient ends the loop at
once with the error unchanged, one call and no sleep. -/
theorem retryAux_fatal {α : Type} (fn : Nat → α × Option GoErr) {a : Nat}
    (ha : a ≤ maxRetries) {v : α} {e : GoErr} (hfn : fn a = (v, some e))
    (hc : e.isCanceled = false) (ht : e.isTransient = false) (acc : α)
    (prev : Option GoErr) :
    retryAux fn a acc prev = ⟨v, some e, 1, []⟩ := by
  rw [retryAux]
  rw [dif_neg (by omega), hfn]
  simp [hc, ht]

/-- A transient non-cancellation error sleeps 10 milliseconds times the
attempt number and re-enters the loop with the counter incremented. -/
theorem retryAux_transient {α : Type} (fn : Nat → α × Option GoErr) {a : Nat}
    (ha : a ≤ maxRetries) {v : α} {e : GoErr} (hfn : fn a = (v, some e))
    (hc : e.isCanceled = false) (ht : e.isTransient = true) (acc : α)
    (prev : Option GoErr) :
    retryAux fn a acc prev =
      ⟨(retryAux fn (a + 1) v (some e)).value, (retryAux fn (a + 1) v (some e)).err,
        (retryAux fn (a + 1) v (some e)).calls + 1,
        10 * a :: (retryAux fn (a + 1) v (some e)).sleeps⟩ := by
  conv_lhs => rw [retryAux]
  rw [dif_neg (by omega), hfn]
  simp [hc, ht]

/-- Run of the loop from attempt a when every attempt before k fails with
a transient non-cancellation error and attempt k succeeds: the success is
returned after the remaining k - a + 1 calls, with one sleep of
10 milliseconds times j for each failed attempt j. -/
theorem retryAux_success_run {α : Type} (fn : Nat → α × Option GoErr)
    (E : Nat → GoErr) :
    ∀ (n a : Nat) (acc : α) (prev : Option GoErr) (k : Nat) (v : α),
      a + n = k → k ≤ maxRetries →
      (∀ j, a ≤ j → j < k →
        (fn j).2 = some (E j) ∧ (E j).isCanceled = false ∧ (E j).isTransient = true) →
      fn k = (v, none) →
      retryAux fn a acc prev =
        ⟨v, none, n + 1, (List.range' a n).map (fun j => 10 * j)⟩ := by
  intro n
  induction n with
  | zero =>
    intro a acc prev k v hak hk _ hsucc
    have ha : a = k := by omega
    subst ha
    simp [retryAux_success fn hk hsucc]
  | succ m ih =>
    intro a acc prev k v hak hk htrans hsucc
    have haj := htrans a le_rfl (by omega)
    have hfa : fn a = ((fn a).1, some (E a)) := by rw [← haj.1]
    rw [retryAux_transient fn (by omega) hfa haj.2.1 haj.2.2]
    rw [ih (a + 1) (fn a).1 (some (E a)) k v (by omega) hk
      (fun j hj1 hj2 => htrans j (by omega) hj2) hsucc]
    simp [List.range'_succ]

/-- Run of the loop from attempt a when every attempt from a through
maxRetries fails with a transient non-cancellation error: the loop makes
the remaining maxRetries - a + 1 calls, sleeps after each failure, and
returns the last error wrapped with the exceeded-retry-limit message. -/
theorem retryAux_exhaust_run {α : Type} (fn : Nat → α × Option GoErr)
    (E : Nat → GoErr) :
    ∀ (n a : Nat) (acc : α) (prev : Option GoErr),
      a + n = maxRetries + 1 → a ≤ maxRetries →
      (∀ j, a ≤ j → j ≤ maxRetries →
        (fn j).2 = some (E j) ∧ (E j).isCanceled = false ∧ (E j).isTransient = true) →
      retryAux fn a acc prev =
        ⟨(fn maxRetries).1, some (.wrap "exceeded retry limit" (E maxRetries)), n,
          (List.range' a n).map (fun j => 10 * j)⟩ := by
  intro n
  induction n with
  | zero => intro a acc prev hak ha _; omega
  | succ m ih =>
    intro a acc prev hak ha htrans
    have haj := htrans a le_rfl ha
    have hfa : fn a = ((fn a).1, some (E a)) := by rw [← haj.1]
    rw [retryAux_transient fn ha hfa haj.2.1 haj.2.2]
    by_cases hm : m = 0
    · subst hm
      have haeq : a = maxRetries := by omega
      subst haeq
      rw [retryAux_exhaust fn (by omega)]
      simp [wrapOpt, List.range'_succ]
    · rw [ih (a + 1) (fn a).1 (some (E a)) (by omega) (by omega)
        (fun j hj1 hj2 => htrans j (by omega) hj2)]
      simp [List.range'_succ]

/-! ### Claims about the retry decorator -/

/-- C1: for every read operation (FindOne, FindAll, FindMany) invoked
through RetryingStorage, if the underlying call fails with a recognized
transient error on each of 10 consecutive attempts, the decorator makes
exactly 10 underlying calls (the call count is 10, so there is no 11th)
and returns an error wrapping the 10th attempt error with the
exceeded-retry-limit marker, and unwrapping that error yields the 10th
attempt error itself. -/
theorem claim_C1_read_retry_exhaustion
    (upO upA : Nat → Option GoErr) (upM : Nat → Nat × Option GoErr)
    (E : Nat → GoErr)
    (hflags : ∀ j, 1 ≤ j → j ≤ maxRetries →
      (E j).isCanceled = false ∧ (E j).isTransient = true)
    (hO : ∀ j, 1 ≤ j → j ≤ maxRetries → upO j = some (E j))
    (hA : ∀ j, 1 ≤ j → j ≤ maxRetries → upA j = some (E j))
    (hM : ∀ j, 1 ≤ j → j ≤ maxRetries → (upM j).2 = some (E j)) :
    RetryingStorage.FindOne upO =
      ⟨(), some (.wrap "exceeded retry limit" (E 10)), 10,
        (List.range' 1 10).map (fun j => 10 * j)⟩ ∧
    RetryingStorage.FindAll upA =
      ⟨(), some (.wrap "exceeded retry limit" (E 10)), 10,
        (List.range' 1 10).map (fun j => 10 * j)⟩ ∧
    RetryingStorage.FindMany upM =
      ⟨(upM 10).1, some (.wrap "exceeded retry limit" (E 10)), 10,
        (List.range' 1 10).map (fun j => 10 * j)⟩ ∧
    GoErr.errUnwrap (.wrap "exceeded retry limit" (E 10)) = some (E 10) := by
  refine ⟨?_, ?_, ?_, rfl⟩
  · exact retryAux_exhaust_run (fun k => ((), upO k)) E 10 1 () none rfl (by decide)
      (fun j hj1 hj2 => ⟨by simpa using hO j hj1 hj2, (hflags j hj1 hj2).1, (hflags j hj1 hj2).2⟩)
  · exact retryAux_exhaust_run (fun k => ((), upA k)) E 10 1 () none rfl (by decide)
      (fun j hj1 hj2 => ⟨by simpa using hA j hj1 hj2, (hflags j hj1 hj2).1, (hflags j hj1 hj2).2⟩)
  · exact retryAux_exhaust_run upM E 10 1 0 none rfl (by decide)
      (fun j hj1 hj2 => ⟨hM j hj1 hj2, (hflags j hj1 hj2).1, (hflags j hj1 hj2).2⟩)

/-- C1 witness: ten straight timeout failures on all three read
operations exhaust the retry budget after exactly 10 calls. -/
theorem claim_C1_witness :
    RetryingStorage.FindOne (fun _ => some errTimeout) =
      ⟨(), some (.wrap "exceeded retry limit" errTimeout), 10,
        (List.range' 1 10).map (fun j => 10 * j)⟩ ∧
    RetryingStorage.FindAll (fun _ => some errTimeout) =
      ⟨(), some (.wrap "exceeded retry limit" errTimeout), 10,
        (List.range' 1 10).map (fun j => 10 * j)⟩ ∧
    RetryingStorage.FindMany (fun _ => (15, some errTimeout)) =
      ⟨15, some (.wrap "exceeded retry limit" errTimeout), 10,
        (List.range' 1 10).map (fun j => 10 * j)⟩ ∧
    GoErr.errUnwrap (.wrap "exceeded retry limit" errTimeout) = some errTimeout :=
  claim_C1_read_retry_exhaustion (fun _ => some errTimeout) (fun _ => some errTimeout)
    (fun _ => (15, some errTimeout)) (fun _ => errTimeout)
    (by intro j hj1 hj2; exact ⟨rfl, rfl⟩)
    (fun _ _ _ => rfl) (fun _ _ _ => rfl) (fun _ _ _ => rfl)

/-- C2: for every read operation invoked through RetryingStorage and
every k between 1 and 10, if the first k - 1 attempts fail with transient
non-cancellation errors and attempt k succeeds, the decorator returns the
success (nil error, and for FindMany the total of the successful attempt)
after exactly k underlying calls and no further call. -/
theorem claim_C2_success_on_attempt_k
    (upO upA : Nat → Option GoErr) (upM : Nat → Nat × Option GoErr)
    (E : Nat → GoErr) (k : Nat) (t : Nat)
    (hk1 : 1 ≤ k) (hk10 : k ≤ maxRetries)
    (hflags : ∀ j, 1 ≤ j → j < k →
      (E j).isCanceled = false ∧ (E j).isTransient = true)
    (hO : ∀ j, 1 ≤ j → j < k → upO j = some (E j))
    (hA : ∀ j, 1 ≤ j → j < k → upA j = some (E j))
    (hM : ∀ j, 1 ≤ j → j < k → (upM j).2 = some (E j))
    (hOk : upO k = none) (hAk : upA k = none) (hMk : upM k = (t, none)) :
    RetryingStorage.FindOne upO =
      ⟨(), none, k, (List.range' 1 (k - 1)).map (fun j => 10 * j)⟩ ∧
    RetryingStorage.FindAll upA =
      ⟨(), none, k, (List.range' 1 (k - 1)).map (fun j => 10 * j)⟩ ∧
    RetryingStorage.FindMany upM =
      ⟨t, none, k, (List.range' 1 (k - 1)).map (fun j => 10 * j)⟩ := by
  have hcnt : k - 1 + 1 = k := by omega
  refine ⟨?_, ?_, ?_⟩
  · have := retryAux_success_run (fun j => ((), upO j)) E (k - 1) 1 () none k ()
      (by omega) hk10
      (fun j hj1 hj2 => ⟨by simpa using hO j hj1 hj2, (hflags j hj1 hj2).1, (hflags j hj1 hj2).2⟩)
      (by simpa using hOk)
    rw [RetryingStorage.FindOne, retry, this, hcnt]
  · have := retryAux_success_run (fun j => ((), upA j)) E (k - 1) 1 () none k ()
      (by omega) hk10
      (fun j hj1 hj2 => ⟨by simpa using hA j hj1 hj2, (hflags j hj1 hj2).1, (hflags j hj1 hj2).2⟩)
      (by simpa using hAk)
    rw [RetryingStorage.FindAll, retry, this, hcnt]
  · have := retryAux_success_run upM E (k - 1) 1 0 none k t
      (by omega) hk10
      (fun j hj1 hj2 => ⟨hM j hj1 hj2, (hflags j hj1 hj2).1, (hflags j hj1 hj2).2⟩)
      hMk
    rw [RetryingStorage.FindMany, retry, this, hcnt]

/-- C2 witness: two network failures followed by a success on attempt 3
give exactly 3 underlying calls and, for FindMany, the total 15 of the
successful attempt. -/
theorem claim_C2_witness :
    RetryingStorage.FindOne (fun j => if j < 3 then some errNetwork else none) =
      ⟨(), none, 3, (List.range' 1 2).map (fun j => 10 * j)⟩ ∧
    RetryingStorage.FindAll (fun j => if j < 3 then some errNetwork else none) =
      ⟨(), none, 3, (List.range' 1 2).map (fun j => 10 * j)⟩ ∧
    RetryingStorage.FindMany (fun j => if j < 3 then (0, some errNetwork) else (15, none)) =
      ⟨15, none, 3, (List.range' 1 2).map (fun j => 10 * j)⟩ :=
  claim_C2_success_on_attempt_k
    (fun j => if j < 3 then some errNetwork else none)
    (fun j => if j < 3 then some errNetwork else none)
    (fun j => if j < 3 then (0, some errNetwork) else (15, none))
    (fun _ => errNetwork) 3 15 (by decide) (by decide)
    (by intro j hj1 hj2; exact ⟨rfl, rfl⟩)
    (by intro j hj1 hj
        show (if j < 3 then some errNetwork else none) = some errNetwork
        rw [if_pos hj])
    (by intro j hj1 hj
        show (if j < 3 then some errNetwork else none) = some errNetwork
        rw [if_pos hj])
    (by intro j hj1 hj
        show (if j < 3 then ((0 : Nat), some errNetwork) else (15, none)).2 = some errNetwork
        rw [if_pos hj])
    rfl rfl rfl

/-- C3: for every read operation invoked through RetryingStorage, a first
attempt failing with a non-cancellation error matching none of the
transient categories is returned as that exact error value, unwrapped,
after exactly 1 underlying call and no sleep. -/
theorem claim_C3_unrecognized_fatal
    (upO upA : Nat → Option GoErr) (upM : Nat → Nat × Option GoErr)
    (e : GoErr) (hc : e.isCanceled = false) (ht : e.isTransient = false)
    (hO : upO 1 = some e) (hA : upA 1 = some e) (hM : (upM 1).2 = some e) :
    RetryingStorage.FindOne upO = ⟨(), some e, 1, []⟩ ∧
    RetryingStorage.FindAll upA = ⟨(), some e, 1, []⟩ ∧
    RetryingStorage.FindMany upM = ⟨(upM 1).1, some e, 1, []⟩ := by
  refine ⟨?_, ?_, ?_⟩
  · exact retryAux_fatal (fun j => ((), upO j)) (by decide) (by simpa using hO) hc ht () none
  · exact retryAux_fatal (fun j => ((), upA j)) (by decide) (by simpa using hA) hc ht () none
  · exact retryAux_fatal upM (by decide) (by rw [← hM]) hc ht 0 none

/-- C3 witness: an unrecognized application error on attempt 1 is
returned unchanged with one call and no sleep. -/
theorem claim_C3_witness :
    RetryingStorage.FindOne (fun _ => some errOther) = ⟨(), some errOther, 1, []⟩ ∧
    RetryingStorage.FindAll (fun _ => some errOther) = ⟨(), some errOther, 1, []⟩ ∧
    RetryingStorage.FindMany (fun _ => (0, some errOther)) = ⟨0, some errOther, 1, []⟩ :=
  claim_C3_unrecognized_fatal (fun _ => some errOther) (fun _ => some errOther)
    (fun _ => (0, some errOther)) errOther (by decide) (by decide) rfl rfl rfl

/-- C4: for every read operation invoked through RetryingStorage, a first
attempt failing with a cancellation error is returned immediately and
unchanged after exactly 1 underlying call and no sleep, whatever the
transient classification of the error also is. -/
theorem claim_C4_cancellation_immediate
    (upO upA : Nat → Option GoErr) (upM : Nat → Nat × Option GoErr)
    (e : GoErr) (hc : e.isCanceled = true)
    (hO : upO 1 = some e) (hA : upA 1 = some e) (hM : (upM 1).2 = some e) :
    RetryingStorage.FindOne upO = ⟨(), some e, 1, []⟩ ∧
    RetryingStorage.FindAll upA = ⟨(), some e, 1, []⟩ ∧
    RetryingStorage.FindMany upM = ⟨(upM 1).1, some e, 1, []⟩ := by
  refine ⟨?_, ?_, ?_⟩
  · exact retryAux_canceled (fun j => ((), upO j)) (by decide) (by simpa using hO) hc () none
  · exact retryAux_canceled (fun j => ((), upA j)) (by decide) (by simpa using hA) hc () none
  · exact retryAux_canceled upM (by decide) (by rw [← hM]) hc 0 none

/-- C4 witness: a cancellation that would also match the timeout category
is still returned at once with one call and no sleep. -/
theorem claim_C4_witness :
    RetryingStorage.FindOne (fun _ => some errCanceledTimeout) =
      ⟨(), some errCanceledTimeout, 1, []⟩ ∧
    RetryingStorage.FindAll (fun _ => some errCanceledTimeout) =
      ⟨(), some errCanceledTimeout, 1, []⟩ ∧
    RetryingStorage.FindMany (fun _ => (0, some errCanceledTimeout)) =
      ⟨0, some errCanceledTimeout, 1, []⟩ :=
  claim_C4_cancellation_immediate (fun _ => some errCanceledTimeout)
    (fun _ => some errCanceledTimeout) (fun _ => (0, some errCanceledTimeout))
    errCanceledTimeout (by decide) rfl rfl rfl

/-- C5: every write operation (Insert, Update, Upsert, Delete, DeleteMany)
and RunInTransaction invoked through RetryingStorage makes exactly 1
underlying call and returns the upstream result unchanged, whatever that
result is: the decorated write operations are the upstream operations. -/
theorem claim_C5_writes_passthrough
    (upI upT : Nat → Option GoErr) (upU upUp upD upDM : Nat → Int × Option GoErr) :
    RetryingStorage.Insert upI = (upI 1, 1) ∧
    RetryingStorage.RunInTransaction upT = (upT 1, 1) ∧
    RetryingStorage.Update upU = (upU 1, 1) ∧
    RetryingStorage.Upsert upUp = (upUp 1, 1) ∧
    RetryingStorage.Delete upD = (upD 1, 1) ∧
    RetryingStorage.DeleteMany upDM = (upDM 1, 1) :=
  ⟨rfl, rfl, rfl, rfl, rfl, rfl⟩

/-- C8: under a fully exhausted run of the retry loop (a transient
failure of any category on every attempt), the sleep after the n-th
failure is exactly 10 milliseconds times n for n from 1 to 10, and the
cumulative sleep is 550 milliseconds. -/
theorem claim_C8_linear_backoff {α : Type} (fn : Nat → α × Option GoErr)
    (E : Nat → GoErr) (init : α)
    (hfn : ∀ j, 1 ≤ j → j ≤ maxRetries →
      (fn j).2 = some (E j) ∧ (E j).isCanceled = false ∧ (E j).isTransient = true) :
    (retry fn init).sleeps = (List.range' 1 10).map (fun j => 10 * j) ∧
    (∀ n, n < 10 → (retry fn init).sleeps.getD n 0 = 10 * (n + 1)) ∧
    (retry fn init).sleeps.sum = 550 := by
  have h := retryAux_exhaust_run fn E 10 1 init none rfl (by decide) hfn
  have hs : (retry fn init).sleeps = (List.range' 1 10).map (fun j => 10 * j) := by
    rw [retry, h]
  refine ⟨hs, ?_, ?_⟩
  · simp only [hs]
    decide
  · rw [hs]
    decide

/-- C8 witness: one exhausted run that cycles through all five transient
categories sleeps 10, 20, ..., 100 milliseconds, 550 in total. -/
theorem claim_C8_witness :
    (retry (fun j => ((),
        some ([errDisconnected, errTimeout, errNetwork, errPool,
          errWaitQueue].getD (j % 5) errTimeout))) ()).sleeps =
      (List.range' 1 10).map (fun j => 10 * j) ∧
    (∀ n, n < 10 → (retry (fun j => ((),
        some ([errDisconnected, errTimeout, errNetwork, errPool,
          errWaitQueue].getD (j % 5) errTimeout))) ()).sleeps.getD n 0 = 10 * (n + 1)) ∧
    (retry (fun j => ((),
        some ([errDisconnected, errTimeout, errNetwork, errPool,
          errWaitQueue].getD (j % 5) errTimeout))) ()).sleeps.sum = 550 :=
  claim_C8_linear_backoff _
    (fun j => [errDisconnected, errTimeout, errNetwork, errPool,
      errWaitQueue].getD (j % 5) errTimeout) ()
    (by intro j hj1 hj2
        simp only [maxRetries] at hj2
        refine ⟨rfl, ?_, ?_⟩ <;> (interval_cases j <;> decide))

/-! ### Claims about Storage.FindMany paging -/

/-- Character list of the minus-sign string. -/
theorem dashData : ("-" : String).data = ['-'] := rfl

/-- The driver sort does not change how many documents match. -/
theorem sortDocs_length (sort : String) (docs : List Doc) :
    (sortDocs sort docs).length = docs.length := by
  unfold sortDocs
  split_ifs with h1 h2
  · rfl
  · exact (List.perm_insertionSort _ docs).length_eq
  · exact (List.perm_insertionSort _ docs).length_eq

/-- With a minus-prefixed sort string the sort block selects descending
order on the trimmed field name. -/
theorem sortDocs_desc {F sort : String} (h : sort.data = '-' :: F.data)
    (docs : List Doc) :
    sortDocs sort docs = List.insertionSort (descBy F) docs := by
  have hne : ¬ sort = "" := by
    intro hs; subst hs
    have h0 : ("" : String).data = [] := rfl
    rw [h0] at h
    exact List.noConfusion h
  have hpre : hasPrefixGo sort "-" = true := by
    unfold hasPrefixGo
    rw [h, dashData]
    simp [List.isPrefixOf]
  have htrim : trimPrefixGo sort "-" = F := by
    unfold trimPrefixGo
    rw [if_pos hpre, h, dashData]
    exact rfl
  unfold sortDocs
  rw [if_neg hne, if_pos hpre, htrim]

/-- With a nonempty sort string that does not start with a minus sign the
sort block selects ascending order on the field name itself. -/
theorem sortDocs_asc {sort : String} (hne : sort ≠ "")
    (hpre : hasPrefixGo sort "-" = false) (docs : List Doc) :
    sortDocs sort docs = List.insertionSort (ascBy sort) docs := by
  unfold sortDocs
  rw [if_neg hne, if_neg (by simp [hpre])]

/-- The page is a sublist of the sorted matching documents. -/
theorem findPage_sublist (store : List Doc) (fil : Doc → Bool)
    (limit offset : Nat) (sort : String) :
    List.Sublist (findPage store fil limit offset sort)
      (sortDocs sort (store.filter fil)) := by
  unfold findPage
  split_ifs with h
  · exact List.drop_sublist offset _
  · exact (List.take_sublist limit _).trans (List.drop_sublist offset _)

/-- C6 counterexample: the claim asserts the page holds at most limit
documents including when limit is 0, but Storage.FindMany hands limit
straight to the driver, for which limit 0 means no limit: against a store
with one matching document, limit 0 and offset 0 the page holds one
document, more than 0. -/
theorem claim_C6_counterexample :
    ¬ ((Storage.FindMany [[("age", (1 : Int))]] (fun _ => true) 0 0 "").2.length ≤ 0) := by
  decide

/-- C6 as amended: for every successful Storage.FindMany call the total
equals the count of all documents matching the filter, ignoring limit and
offset; when limit is positive the page holds at most limit documents
after skipping offset; when limit is 0 no limit is applied and the page
holds all matching documents after skipping offset; and the page is
ordered descending on F for sort "-F", ascending on sort itself for a
nonempty sort without the minus marker, and unspecified for an empty
sort string. -/
theorem claim_C6_findmany_paging (store : List Doc) (fil : Doc → Bool)
    (limit offset : Nat) (sort : String) :
    (Storage.FindMany store fil limit offset sort).1 = (store.filter fil).length ∧
    (0 < limit → (Storage.FindMany store fil limit offset sort).2.length ≤ limit) ∧
    (limit = 0 → (Storage.FindMany store fil limit offset sort).2.length
      = (store.filter fil).length - offset) ∧
    (∀ F : String, sort.data = '-' :: F.data →
      List.Sorted (descBy F) (Storage.FindMany store fil limit offset sort).2) ∧
    (sort ≠ "" → hasPrefixGo sort "-" = false →
      List.Sorted (ascBy sort) (Storage.FindMany store fil limit offset sort).2) := by
  refine ⟨rfl, ?_, ?_, ?_, ?_⟩
  · intro hl
    show (findPage store fil limit offset sort).length ≤ limit
    unfold findPage
    rw [if_neg (by omega)]
    rw [List.length_take]
    exact min_le_left _ _
  · intro hl
    show (findPage store fil limit offset sort).length = _
    unfold findPage
    rw [if_pos hl, List.length_drop, sortDocs_length]
  · intro F hF
    have hs : List.Sorted (descBy F) (sortDocs sort (store.filter fil)) := by
      rw [sortDocs_desc hF]
      exact List.sorted_insertionSort _ _
    exact List.Pairwise.sublist (findPage_sublist store fil limit offset sort) hs
  · intro hne hpre
    have hs : List.Sorted (ascBy sort) (sortDocs sort (store.filter fil)) := by
      rw [sortDocs_asc hne hpre]
      exact List.sorted_insertionSort _ _
    exact List.Pairwise.sublist (findPage_sublist store fil limit offset sort) hs

/-- C6 witness: over a three-document store, limit 2 offset 0 sort "-age"
yields a page of at most 2 documents in descending age order, and limit 0
offset 1 sort "age" yields the 2 remaining documents in ascending order. -/
theorem claim_C6_witness :
    (Storage.FindMany [[("age", (30 : Int))], [("age", (20 : Int))], [("age", (40 : Int))]]
        (fun _ => true) 2 0 "-age").2.length ≤ 2 ∧
    List.Sorted (descBy "age")
      (Storage.FindMany [[("age", (30 : Int))], [("age", (20 : Int))], [("age", (40 : Int))]]
        (fun _ => true) 2 0 "-age").2 ∧
    (Storage.FindMany [[("age", (30 : Int))], [("age", (20 : Int))], [("age", (40 : Int))]]
        (fun _ => true) 0 1 "age").2.length = 3 - 1 ∧
    List.Sorted (ascBy "age")
      (Storage.FindMany [[("age", (30 : Int))], [("age", (20 : Int))], [("age", (40 : Int))]]
        (fun _ => true) 0 1 "age").2 :=
  ⟨(claim_C6_findmany_paging _ _ 2 0 "-age").2.1 (by decide),
   (claim_C6_findmany_paging _ _ 2 0 "-age").2.2.2.1 "age" rfl,
   (claim_C6_findmany_paging _ _ 0 1 "age").2.2.1 rfl,
   (claim_C6_findmany_paging _ _ 0 1 "age").2.2.2.2 (by decide) (by decide)⟩

/-! ### Claim about Storage.RunInTransaction -/

/-- C7: for every RunInTransaction call whose session starts, if the
transactional body (StartTransaction, then fn, then CommitTransaction)
succeeds entirely the transaction is committed and nil is returned; if the
body yields an error, an abort is attempted; when the abort succeeds the
original error is returned, and when the abort itself fails the returned
error combines the abort failure (the unwrappable operand) with the
original error (rendered into the message), neither discarded.  The
success clause reads the claim with starting and committing succeeding as
well, since its error clause explicitly covers those failures. -/
theorem claim_C7_transaction_abort (env : TxnEnv)
    (hss : env.startSessionErr = none) :
    (txnInner env = none → Storage.RunInTransaction env = ⟨none, true, false⟩) ∧
    (∀ e, txnInner env = some e →
      (Storage.RunInTransaction env).abortAttempted = true ∧
      (env.abortErr = none → Storage.RunInTransaction env = ⟨some e, false, true⟩) ∧
      (∀ a, env.abortErr = some a →
        Storage.RunInTransaction env = ⟨some (.wrapAndText a e), false, true⟩ ∧
        GoErr.errUnwrap (.wrapAndText a e) = some a ∧
        GoErr.errText (.wrapAndText a e) = GoErr.errText a ++ " " ++ GoErr.errText e)) := by
  unfold Storage.RunInTransaction
  rw [hss]
  constructor
  · intro h
    rw [h]
  · intro e he
    rw [he]
    cases hab : env.abortErr with
    | none =>
      refine ⟨rfl, fun _ => rfl, ?_⟩
      intro a ha
      exact Option.noConfusion ha
    | some a0 =>
      refine ⟨rfl, ?_, ?_⟩
      · intro h0
        exact Option.noConfusion h0
      · intro a ha
        cases Option.some.inj ha
        exact ⟨rfl, rfl, rfl⟩

/-- C7 witness: a failing fn with a failing abort returns the combined
error holding both causes, the abort failure unwrappable and the original
error in the text. -/
theorem claim_C7_witness :
    Storage.RunInTransaction ⟨none, none, some errOther, none, some errNetwork⟩ =
      ⟨some (.wrapAndText errNetwork errOther), false, true⟩ ∧
    GoErr.errUnwrap (.wrapAndText errNetwork errOther) = some errNetwork ∧
    GoErr.errText (.wrapAndText errNetwork errOther) =
      GoErr.errText errNetwork ++ " " ++ GoErr.errText errOther :=
  ((claim_C7_transaction_abort ⟨none, none, some errOther, none, some errNetwork⟩ rfl).2
    errOther rfl).2.2 errNetwork rfl

/-! ### Claims about the ObjectID hex conversion -/

/-- A successful hexadecimal decode yields one byte per two characters. -/
theorem hexDecode_length : ∀ (l : List Char) (bs : List Nat),
    hexDecode l = some bs → 2 * bs.length = l.length
  | [], bs, h => by
    simp only [hexDecode, Option.some.injEq] at h
    subst h
    rfl
  | [_], _, h => by
    simp only [hexDecode] at h
    exact Option.noConfusion h
  | c1 :: c2 :: rest, bs, h => by
    simp only [hexDecode] at h
    cases h1 : hexDigitVal c1 with
    | none => rw [h1] at h; exact Option.noConfusion h
    | some hi =>
      rw [h1] at h
      cases h2 : hexDigitVal c2 with
      | none => rw [h2] at h; exact Option.noConfusion h
      | some lo =>
        rw [h2] at h
        cases h3 : hexDecode rest with
        | none => rw [h3] at h; exact Option.noConfusion h
        | some bs2 =>
          rw [h3] at h
          have hbs := (Option.some.inj h).symm
          subst hbs
          have ih := hexDecode_length rest bs2 h3
          simp only [List.length_cons]
          omega

/-- C9: for every input string the ObjectID conversion yields a 12-byte
identifier, and when the input fails to parse as a 24-character
hexadecimal representation the conversion silently yields the zero-value
identifier instead of an error. -/
theorem claim_C9_objectid_invalid_zero (s : String) :
    (ObjectID s).length = 12 ∧
    (objectIDFromHex s = none → ObjectID s = zeroObjectID) := by
  unfold ObjectID
  cases h : objectIDFromHex s with
  | none => exact ⟨by simp [zeroObjectID], fun _ => rfl⟩
  | some bs =>
    refine ⟨?_, ?_⟩
    · show bs.length = 12
      unfold objectIDFromHex at h
      by_cases h24 : s.data.length = 24
      · rw [if_pos h24] at h
        have := hexDecode_length s.data bs h
        omega
      · rw [if_neg h24] at h
        exact Option.noConfusion h
    · intro hn
      exact Option.noConfusion hn

/-- C9 witness: a 24-character string of non-hexadecimal characters
converts to the zero identifier, of length 12. -/
theorem claim_C9_witness :
    (ObjectID "zzzzzzzzzzzzzzzzzzzzzzzz").length = 12 ∧
    ObjectID "zzzzzzzzzzzzzzzzzzzzzzzz" = zeroObjectID :=
  ⟨(claim_C9_objectid_invalid_zero "zzzzzzzzzzzzzzzzzzzzzzzz").1,
   (claim_C9_objectid_invalid_zero "zzzzzzzzzzzzzzzzzzzzzzzz").2 (by decide)⟩

/-- Hexadecimal digit characters decode back to their value. -/
theorem hexDigitVal_toHexChar : ∀ n, n < 16 → hexDigitVal (toHexChar n) = some n := by
  decide

/-- Encoding yields two characters per byte. -/
theorem encodeChars_length : ∀ id : List Nat,
    ((id.map hexEncodeByte).flatten).length = 2 * id.length := by
  intro id
  induction id with
  | nil => rfl
  | cons b rest ih =>
    simp only [List.map_cons, List.flatten_cons, List.length_append, ih,
      hexEncodeByte, List.length_cons, List.length_nil]
    omega

/-- Decoding inverts encoding on byte lists. -/
theorem hexDecode_encode : ∀ id : List Nat, (∀ b ∈ id, b < 256) →
    hexDecode ((id.map hexEncodeByte).flatten) = some id := by
  intro id
  induction id with
  | nil => intro _; rfl
  | cons b rest ih =>
    intro hb
    have hb0 : b < 256 := hb b (by simp)
    have hdiv : b / 16 < 16 := by omega
    have hmod : b % 16 < 16 := by omega
    show hexDecode (toHexChar (b / 16) :: toHexChar (b % 16) ::
      (rest.map hexEncodeByte).flatten) = some (b :: rest)
    simp only [hexDecode]
    rw [hexDigitVal_toHexChar _ hdiv, hexDigitVal_toHexChar _ hmod,
      ih (fun x hx => hb x (by simp [hx]))]
    show some ((16 * (b / 16) + b % 16) :: rest) = some (b :: rest)
    have hb16 : 16 * (b / 16) + b % 16 = b := by omega
    rw [hb16]

/-- C10: hex round trip of identifiers: for every 12-byte identifier,
converting its 24-character lower-case hexadecimal representation back
through ObjectID yields the identifier itself. -/
theorem claim_C10_objectid_hex_roundtrip (id : List Nat) (hlen : id.length = 12)
    (hb : ∀ b ∈ id, b < 256) : ObjectID (oidHex id) = id := by
  unfold ObjectID objectIDFromHex oidHex
  have hdata : (String.mk ((id.map hexEncodeByte).flatten)).data
      = (id.map hexEncodeByte).flatten := rfl
  rw [hdata, encodeChars_length id, hlen, if_pos (by omega), hexDecode_encode id hb]
  rfl

/-- C10 witness: one concrete 12-byte identifier survives the round trip. -/
theorem claim_C10_witness :
    ObjectID (oidHex [0, 1, 2, 3, 4, 5, 6, 7, 8, 9, 254, 255]) =
      [0, 1, 2, 3, 4, 5, 6, 7, 8, 9, 254, 255] :=
  claim_C10_objectid_hex_roundtrip [0, 1, 2, 3, 4, 5, 6, 7, 8, 9, 254, 255]
    (by decide) (by decide)
